import Mathlib

/-!
Verification development for the king-of-the-hill game controller
(`src/main/main.c`).  The modelled core is: the shared game state
(`game_state`, `team_color`, `current_game_time`), the button interrupt
handler `button_isr_handler`, the once-per-second countdown body in
`app_main`, the bounded notification queue (`xQueueSend` with
`portMAX_DELAY`, capacity `QUEUE_SIZE`), and the delivery retry loop in
`send_game_data` driven by `network_task`.  Display, LED and buzzer
rendering perform no transition of the modelled state and are out of
scope of these theorems.
-/

/-- Constant `game_time_seconds = 900` (15 minutes), from `main.c`. -/
def game_time_seconds : Nat := 900

/-- Constant `QUEUE_SIZE = 10`, the notification queue capacity. -/
def QUEUE_SIZE : Nat := 10

/-- Constant `LEFT_BUTTON_PIN = 47`. -/
def LEFT_BUTTON_PIN : Nat := 47

/-- Constant `RIGHT_BUTTON_PIN = 21`. -/
def RIGHT_BUTTON_PIN : Nat := 21

/-- Constant `max_retries = 3` from `send_game_data`. -/
def max_retries : Nat := 3

/-- Constant `retry_delay_ms = 2000` from `send_game_data`. -/
def retry_delay_ms : Nat := 2000

/-- The `GameState` enum from `main.c`. -/
inductive GameState where
  | GAME_OFF
  | GAME_PLAYING
  | GAME_FINISHED
deriving DecidableEq, Repr

/-- The `TeamColor` enum from `main.c`. -/
inductive TeamColor where
  | NONE
  | LEFT_RED
  | RIGHT_BLUE
deriving DecidableEq, Repr

/-- The mutable globals of `main.c` that the button handler and the
countdown loop read and write: `game_state`, `team_color`,
`current_game_time`.  (`buzzer_state` and the render buffers are not
part of any modelled transition decision.) -/
structure Globals where
  game_state : GameState
  team_color : TeamColor
  current_game_time : Nat
deriving DecidableEq, Repr

/-- Initial values of the globals: `GAME_OFF`, `NONE`, `0`. -/
def initG : Globals := ⟨.GAME_OFF, .NONE, 0⟩

/-- The two-way ternary `team_color == LEFT_RED ? "RED" : "BLUE"` used by
every `snprintf` message site in `main.c`.  Note that it maps `NONE`
to `"BLUE"`. -/
def teamLabel (t : TeamColor) : String :=
  if t = .LEFT_RED then "RED" else "BLUE"

/-- Zero-padded two-digit rendering of a number, as `%02d`. -/
def pad2 (n : Nat) : String :=
  if n < 10 then "0" ++ toString n else toString n

/-- The helper `format_time` from `main.c`: renders `remaining` seconds
as `"%02d:%02d"` (minutes, seconds). -/
def format_time (remaining : Nat) : String :=
  pad2 (remaining / 60) ++ ":" ++ pad2 (remaining % 60)

/-- The four message templates produced by `snprintf` in `main.c`, each
carrying the already-formatted `%s` fields it interpolates.  `render`
recovers the exact byte string placed on the queue. -/
inductive OutboundMsg where
  | game_over (label : String)
  | game_started (label : String)
  | took_hill (label : String) (time_left : String)
  | halfway (label : String) (time_left : String)
deriving DecidableEq, Repr

/-- Exact string rendering of each message template of `main.c`. -/
def render : OutboundMsg → String
  | .game_over l => "GAME OVER: " ++ l ++ " has won!"
  | .game_started l => l ++ " took the hill. GAME STARTED!"
  | .took_hill l t => l ++ " took the hill! Time left: " ++ t
  | .halfway l t => "HALFWAY: " ++ l ++ " is holding the hill, time left: " ++ t

/-- The result of `xQueueSend(network_queue, &msg, portMAX_DELAY)`:
either the message is appended (a slot was free) or the call blocks the
caller until a slot frees — with an infinite timeout it never returns
an error and never drops the message. -/
inductive QueueSendResult where
  | sent (q : List OutboundMsg)
  | blocked
deriving DecidableEq, Repr

/-- Model of `xQueueSend` on the capacity-`QUEUE_SIZE` queue with
`ticksToWait = portMAX_DELAY`, as called from `button_isr_handler` and
`app_main`: append when a slot is free, otherwise block. -/
def xQueueSend_portMAX_DELAY (q : List OutboundMsg) (m : OutboundMsg) : QueueSendResult :=
  if q.length < QUEUE_SIZE then .sent (q ++ [m]) else .blocked

/-- The body of `button_isr_handler(pin)` from `main.c`, acting on the
globals and returning the messages it sends to the queue, in order.
In the `GAME_FINISHED` branch the source zeroes `team_color` BEFORE
formatting the end message, so the label is computed from the already
cleared colour. -/
def button_isr_handler (pin : Nat) (g : Globals) : Globals × List OutboundMsg :=
  if g.game_state = .GAME_FINISHED then
    let g2 : Globals := ⟨.GAME_OFF, .NONE, 0⟩
    (g2, [.game_over (teamLabel g2.team_color)])
  else if g.game_state = .GAME_OFF then
    let tc :=
      if pin = LEFT_BUTTON_PIN then TeamColor.LEFT_RED
      else if pin = RIGHT_BUTTON_PIN then TeamColor.RIGHT_BLUE
      else g.team_color
    (⟨.GAME_PLAYING, tc, 0⟩, [.game_started (teamLabel tc)])
  else if g.game_state = .GAME_PLAYING then
    if (g.team_color = .LEFT_RED ∧ pin = LEFT_BUTTON_PIN)
        ∨ (g.team_color = .RIGHT_BLUE ∧ pin = RIGHT_BUTTON_PIN) then
      (g, [])
    else
      let tc :=
        if pin = LEFT_BUTTON_PIN then TeamColor.LEFT_RED
        else if pin = RIGHT_BUTTON_PIN then TeamColor.RIGHT_BLUE
        else g.team_color
      ({ g with team_color := tc },
       [.took_hill (teamLabel tc) (format_time (game_time_seconds - g.current_game_time))])
  else (g, [])

/-- One iteration of the forever loop at the end of `app_main`: when the
game is playing it checks the halfway threshold against the CURRENT
`current_game_time`, then either increments the timer (when below
`game_time_seconds`) or transitions to `GAME_FINISHED` and emits the
game-over message.  When not playing it does nothing. -/
def countdown_tick (g : Globals) : Globals × List OutboundMsg :=
  if g.game_state = .GAME_PLAYING then
    let half : List OutboundMsg :=
      if g.current_game_time = game_time_seconds / 2 then
        [.halfway (teamLabel g.team_color)
          (format_time (game_time_seconds - g.current_game_time))]
      else []
    if g.current_game_time < game_time_seconds then
      ({ g with current_game_time := g.current_game_time + 1 }, half)
    else
      ({ g with game_state := .GAME_FINISHED },
       half ++ [.game_over (teamLabel g.team_color)])
  else (g, [])

/-- The two physical buttons for which the interrupt handler is
registered in `app_main`. -/
inductive Button where
  | left
  | right
deriving DecidableEq, Repr

/-- GPIO pin carried as the interrupt argument for each button. -/
def pinOf : Button → Nat
  | .left => LEFT_BUTTON_PIN
  | .right => RIGHT_BUTTON_PIN

/-- The team colour that a press of the given button claims for. -/
def team_of : Button → TeamColor
  | .left => .LEFT_RED
  | .right => .RIGHT_BLUE

/-- An input to the game core: a qualifying button edge, or one
invocation of the 1-second countdown loop body. -/
inductive Input where
  | press (b : Button)
  | tick
deriving DecidableEq, Repr

/-- One step of the game core on an input. -/
def stepG (g : Globals) : Input → Globals × List OutboundMsg
  | .press b => button_isr_handler (pinOf b) g
  | .tick => countdown_tick g

/-- State after running a list of inputs. -/
def runG (g : Globals) : List Input → Globals
  | [] => g
  | i :: l => runG (stepG g i).1 l

/-- All messages emitted while running a list of inputs, in enqueue
order. -/
def eventsG (g : Globals) : List Input → List OutboundMsg
  | [] => []
  | i :: l => (stepG g i).2 ++ eventsG (stepG g i).1 l

/-- Recognises the halfway message template. -/
def isHalf : OutboundMsg → Bool
  | .halfway _ _ => true
  | _ => false

/-- Number of halfway messages emitted along a run. -/
def halfCount (g : Globals) (l : List Input) : Nat :=
  (eventsG g l).countP isHalf

/-- Recognises a button press input. -/
def isPress : Input → Bool
  | .press _ => true
  | .tick => false

/-- Number of steps of a run that start an Active episode: presses that
arrive with `game_state = GAME_OFF`. -/
def startCount (g : Globals) : List Input → Nat
  | [] => 0
  | i :: l =>
    (if g.game_state = .GAME_OFF ∧ isPress i = true then 1 else 0)
      + startCount (stepG g i).1 l

/-- Number of steps of a run that transition from `GAME_PLAYING` to
`GAME_FINISHED`. -/
def finishCount (g : Globals) : List Input → Nat
  | [] => 0
  | i :: l =>
    (if g.game_state = .GAME_PLAYING ∧ (stepG g i).1.game_state = .GAME_FINISHED then 1 else 0)
      + finishCount (stepG g i).1 l

/-- Number of accepted claims along a run: presses that either start the
game from `GAME_OFF` or switch the holder while `GAME_PLAYING`. -/
def claimCount (g : Globals) : List Input → Nat
  | [] => 0
  | i :: l =>
    (match i with
     | .press b =>
       if g.game_state = .GAME_OFF
           ∨ (g.game_state = .GAME_PLAYING ∧ g.team_color ≠ team_of b) then 1 else 0
     | .tick => 0)
      + claimCount (stepG g i).1 l

/-- State part of one countdown tick. -/
def tickState (g : Globals) : Globals := (countdown_tick g).1

/-- State after `n` consecutive countdown ticks. -/
def tickNState : Nat → Globals → Globals
  | 0, g => g
  | n + 1, g => tickState (tickNState n g)

/-- Pending-halfway potential: 1 exactly when the game is playing and
the halfway threshold has not been passed yet. -/
def potHalf (g : Globals) : Nat :=
  if g.game_state = .GAME_PLAYING ∧ g.current_game_time ≤ game_time_seconds / 2 then 1 else 0

/-- Pending-finish potential: 1 exactly when the game is playing. -/
def potFin (g : Globals) : Nat :=
  if g.game_state = .GAME_PLAYING then 1 else 0

/-- Outcome of `send_game_data` for one message: how many delivery
attempts ran, how many 2-second delays were performed, and whether a
delivery succeeded. -/
structure SendResult where
  attempts : Nat
  delays : Nat
  success : Bool
deriving DecidableEq, Repr

/-- The do-while retry loop of `send_game_data`: run one attempt; on
success stop, otherwise delay 2 seconds, bump the attempt counter and
continue while `attempt < max_retries`.  `fuel` is the number of
remaining loop-body executions (`max_retries - attempt`); `oracle i`
tells whether attempt number `i` succeeds. -/
def sendLoop (oracle : Nat → Bool) : Nat → Nat → SendResult
  | _, 0 => ⟨0, 0, false⟩
  | attempt, fuel + 1 =>
    if oracle attempt then ⟨1, 0, true⟩
    else
      let r := sendLoop oracle (attempt + 1) fuel
      ⟨r.attempts + 1, r.delays + 1, r.success⟩

/-- Retry behaviour of `send_game_data` for one dequeued message. -/
def send_game_data_result (oracle : Nat → Bool) : SendResult :=
  sendLoop oracle 0 max_retries

/-- The `network_task` loop: dequeue one message at a time and run
`send_game_data` to completion on it before taking the next, so the
processed sequence is exactly the dequeue (= enqueue) sequence. -/
def network_task_run (deliver : OutboundMsg → Nat → Bool)
    (msgs : List OutboundMsg) : List (OutboundMsg × SendResult) :=
  msgs.map (fun m => (m, send_game_data_result (deliver m)))

/-! Helper lemmas about runs of the game core. -/

/-- Running an appended input list composes the runs. -/
lemma runG_append : ∀ (l1 l2 : List Input) (g : Globals),
    runG g (l1 ++ l2) = runG (runG g l1) l2
  | [], _, _ => rfl
  | _ :: l1, l2, g => runG_append l1 l2 (stepG g _).1

/-- One step never pushes `current_game_time` above `game_time_seconds`. -/
lemma step_elapsed_le (g : Globals) (i : Input)
    (h : g.current_game_time ≤ game_time_seconds) :
    (stepG g i).1.current_game_time ≤ game_time_seconds := by
  rcases g with ⟨gs, tc, t⟩
  rcases i with b | _
  · cases b <;> cases gs <;> cases tc <;>
      simp_all [stepG, button_isr_handler, pinOf, LEFT_BUTTON_PIN, RIGHT_BUTTON_PIN,
        game_time_seconds]
  · cases gs <;>
      simp_all [stepG, countdown_tick, game_time_seconds] <;>
      split_ifs <;> simp_all <;> omega

/-- Along any run, `current_game_time` stays at most `game_time_seconds`. -/
lemma run_elapsed_le : ∀ (l : List Input) (g : Globals),
    g.current_game_time ≤ game_time_seconds →
    (runG g l).current_game_time ≤ game_time_seconds
  | [], _, h => h
  | i :: l, g, h => run_elapsed_le l (stepG g i).1 (step_elapsed_le g i h)

/-- One step preserves the invariant that the holder is `NONE` exactly
when the phase is `GAME_OFF`. -/
lemma step_holder_iff (g : Globals) (i : Input)
    (h : g.team_color = .NONE ↔ g.game_state = .GAME_OFF) :
    ((stepG g i).1.team_color = .NONE ↔ (stepG g i).1.game_state = .GAME_OFF) := by
  rcases g with ⟨gs, tc, t⟩
  rcases i with b | _
  · cases b <;> cases gs <;> cases tc <;>
      simp_all [stepG, button_isr_handler, pinOf, LEFT_BUTTON_PIN, RIGHT_BUTTON_PIN]
  · cases gs <;>
      simp_all [stepG, countdown_tick] <;> split_ifs <;> simp_all

/-- Any run preserves the holder-iff-off invariant. -/
lemma run_holder_iff : ∀ (l : List Input) (g : Globals),
    (g.team_color = .NONE ↔ g.game_state = .GAME_OFF) →
    ((runG g l).team_color = .NONE ↔ (runG g l).game_state = .GAME_OFF)
  | [], _, h => h
  | i :: l, g, h => run_holder_iff l (stepG g i).1 (step_holder_iff g i h)

/-- Per-step halfway bookkeeping: the number of halfway messages a step
emits plus the pending-halfway potential after the step equals the
potential before it plus one for each episode start. -/
lemma step_half_balance (g : Globals) (i : Input) :
    ((stepG g i).2.countP isHalf) + potHalf (stepG g i).1
      = potHalf g + (if g.game_state = .GAME_OFF ∧ isPress i = true then 1 else 0) := by
  rcases g with ⟨gs, tc, t⟩
  rcases i with b | _
  · cases b <;> cases gs <;> cases tc <;>
      simp [stepG, button_isr_handler, pinOf, LEFT_BUTTON_PIN, RIGHT_BUTTON_PIN,
        potHalf, isPress, isHalf, game_time_seconds]
  · cases gs <;>
      simp [stepG, countdown_tick, potHalf, isPress, isHalf, game_time_seconds] <;>
      split_ifs <;> simp_all [isHalf] <;> omega

/-- Run-level halfway bookkeeping, by induction from the step lemma. -/
lemma run_half_balance : ∀ (l : List Input) (g : Globals),
    halfCount g l + potHalf (runG g l) = potHalf g + startCount g l := by
  intro l
  induction l with
  | nil => intro g; simp [halfCount, eventsG, runG, startCount]
  | cons i l ih =>
    intro g
    have h1 := step_half_balance g i
    have h2 := ih (stepG g i).1
    simp only [halfCount, eventsG, runG, startCount, List.countP_append] at *
    omega

/-- Per-step finish bookkeeping: a step performs the playing-to-finished
transition at most once, balanced against the pending-finish potential
and episode starts. -/
lemma step_fin_balance (g : Globals) (i : Input) :
    (if g.game_state = .GAME_PLAYING ∧ (stepG g i).1.game_state = .GAME_FINISHED then 1 else 0)
      + potFin (stepG g i).1
      = potFin g + (if g.game_state = .GAME_OFF ∧ isPress i = true then 1 else 0) := by
  rcases g with ⟨gs, tc, t⟩
  rcases i with b | _
  · cases b <;> cases gs <;> cases tc <;>
      simp [stepG, button_isr_handler, pinOf, LEFT_BUTTON_PIN, RIGHT_BUTTON_PIN,
        potFin, isPress]
  · cases gs <;>
      simp [stepG, countdown_tick, potFin, isPress, game_time_seconds] <;>
      split_ifs <;> simp_all

/-- Run-level finish bookkeeping. -/
lemma run_fin_balance : ∀ (l : List Input) (g : Globals),
    finishCount g l + potFin (runG g l) = potFin g + startCount g l := by
  intro l
  induction l with
  | nil => intro g; simp [finishCount, runG, startCount]
  | cons i l ih =>
    intro g
    have h1 := step_fin_balance g i
    have h2 := ih (stepG g i).1
    simp only [finishCount, runG, startCount] at *
    omega

/-- Appending ticks in front commutes with one trailing tick. -/
lemma tickNState_front : ∀ (n : Nat) (g : Globals),
    tickNState n (tickState g) = tickNState (n + 1) g
  | 0, _ => rfl
  | n + 1, g => by
    show tickState (tickNState n (tickState g)) = tickState (tickNState (n + 1) g)
    rw [tickNState_front n g]

/-- A run made only of ticks is an iteration of the tick body. -/
lemma runG_replicate_tick : ∀ (n : Nat) (g : Globals),
    runG g (List.replicate n Input.tick) = tickNState n g
  | 0, _ => rfl
  | n + 1, g => by
    show runG (stepG g Input.tick).1 (List.replicate n Input.tick) = tickNState (n + 1) g
    rw [runG_replicate_tick n (stepG g Input.tick).1]
    exact tickNState_front n g

/-- While playing and within the game duration, `k` ticks advance the
timer by `k` and change nothing else. -/
lemma tickN_playing (h : TeamColor) : ∀ (k j : Nat), j + k ≤ game_time_seconds →
    tickNState k ⟨.GAME_PLAYING, h, j⟩ = ⟨.GAME_PLAYING, h, j + k⟩
  | 0, j, _ => rfl
  | k + 1, j, hle => by
    show tickState (tickNState k ⟨.GAME_PLAYING, h, j⟩) = _
    rw [tickN_playing h k j (by omega)]
    have hlt : j + k < game_time_seconds := by
      simp [game_time_seconds] at hle ⊢; omega
    simp [tickState, countdown_tick, hlt]
    omega

/-- Ticks emit no claim. -/
lemma claimCount_replicate_tick : ∀ (n : Nat) (g : Globals),
    claimCount g (List.replicate n Input.tick) = 0
  | 0, _ => rfl
  | n + 1, g => by
    show (0 + claimCount (stepG g Input.tick).1 (List.replicate n Input.tick)) = 0
    rw [claimCount_replicate_tick n (stepG g Input.tick).1]

/-- Claim counting splits over appended input lists. -/
lemma claimCount_append : ∀ (l1 l2 : List Input) (g : Globals),
    claimCount g (l1 ++ l2) = claimCount g l1 + claimCount (runG g l1) l2
  | [], _, _ => by simp [claimCount, runG]
  | i :: l1, l2, g => by
    simp only [List.cons_append, claimCount, runG, List.append_eq]
    rw [claimCount_append l1 l2 (stepG g i).1]
    omega

/-- Unfolding lemma: one leading input peels off a run. -/
lemma runG_cons (g : Globals) (i : Input) (l : List Input) :
    runG g (i :: l) = runG (stepG g i).1 l := rfl

/-- Unfolding lemma for `tickNState` at a successor. -/
lemma tickNState_succ (n : Nat) (g : Globals) :
    tickNState (n + 1) g = tickState (tickNState n g) := rfl

/-- Unfolding lemma: the claim contribution of one leading press. -/
lemma claimCount_cons_press (g : Globals) (b : Button) (l : List Input) :
    claimCount g (Input.press b :: l)
      = (if g.game_state = .GAME_OFF
            ∨ (g.game_state = .GAME_PLAYING ∧ g.team_color ≠ team_of b) then 1 else 0)
        + claimCount (stepG g (Input.press b)).1 l := rfl

/-! Claim theorems. -/

/-- C1, counterexample: the claimed behaviour — an enqueue against a full
channel returns to the caller with the event dropped and the queue
unchanged — is false of the code: `button_isr_handler` enqueues with
`xQueueSend(..., portMAX_DELAY)`, which blocks when the queue already
holds `QUEUE_SIZE` messages. -/
theorem spec_C1_counterexample :
    ¬ (∀ (q : List OutboundMsg) (m : OutboundMsg), q.length = QUEUE_SIZE →
        xQueueSend_portMAX_DELAY q m = .sent q) := by
  intro hclaim
  have h1 := hclaim (List.replicate 10 (.game_over "BLUE")) (.game_started "RED") (by decide)
  exact absurd h1 (by decide)

/-- C1, amended: the interrupt handler enqueues with an infinite-timeout
`xQueueSend`; when the channel already holds `QUEUE_SIZE` (10) messages
the call blocks the caller instead of dropping the event, and when a
slot is free the event is appended in FIFO order. -/
theorem spec_C1_amended : ∀ (q : List OutboundMsg) (m : OutboundMsg),
    (QUEUE_SIZE ≤ q.length → xQueueSend_portMAX_DELAY q m = .blocked)
    ∧ (q.length < QUEUE_SIZE → xQueueSend_portMAX_DELAY q m = .sent (q ++ [m])) := by
  intro q m
  constructor
  · intro h
    have hns : ¬ q.length < QUEUE_SIZE := by omega
    simp [xQueueSend_portMAX_DELAY, hns]
  · intro h
    simp [xQueueSend_portMAX_DELAY, h]

/-- C1, witness for the amended statement at a full and a free queue. -/
theorem spec_C1_amended_witness :
    xQueueSend_portMAX_DELAY (List.replicate 10 (.game_over "BLUE")) (.game_started "RED")
      = .blocked
    ∧ xQueueSend_portMAX_DELAY [] (.game_started "RED") = .sent [.game_started "RED"] :=
  ⟨(spec_C1_amended _ _).1 (by decide), (spec_C1_amended [] _).2 (by decide)⟩

/-- C2: a button press in `GAME_FINISHED` resets phase to `GAME_OFF`,
clears the holder, zeroes the timer and emits exactly one game-over
message — but because the source clears `team_color` to `NONE` before
formatting, the two-way ternary labels the winner `"BLUE"` even though
the holder before the reset was `LEFT_RED`, instead of announcing the
prior winner (or `"no team"` for a `NONE` holder). -/
theorem spec_C2 :
    button_isr_handler LEFT_BUTTON_PIN ⟨.GAME_FINISHED, .LEFT_RED, 900⟩
      = (⟨.GAME_OFF, .NONE, 0⟩, [.game_over "BLUE"])
    ∧ render (.game_over "BLUE") = "GAME OVER: BLUE has won!"
    ∧ teamLabel .LEFT_RED = "RED" := by
  refine ⟨by decide, rfl, rfl⟩

/-- C5, counterexample: after a full episode and a reset the holder is
`NONE` and the phase is `GAME_OFF` although a claim has occurred, so
the holder is not `NONE` exactly when phase is `GAME_OFF` AND no claim
has occurred yet. -/
theorem spec_C5_counterexample :
    ¬ (∀ l : List Input, (runG initG l).team_color = .NONE
        ↔ ((runG initG l).game_state = .GAME_OFF ∧ claimCount initG l = 0)) := by
  intro hclaim
  have s1 : (stepG initG (Input.press .left)).1 = ⟨.GAME_PLAYING, .LEFT_RED, 0⟩ := by decide
  have hticks : runG (⟨.GAME_PLAYING, .LEFT_RED, 0⟩ : Globals)
      (List.replicate 901 Input.tick) = ⟨.GAME_FINISHED, .LEFT_RED, 900⟩ := by
    rw [runG_replicate_tick]
    show tickState (tickNState 900 ⟨.GAME_PLAYING, .LEFT_RED, 0⟩) = _
    rw [tickN_playing .LEFT_RED 900 0 (by decide)]
    decide
  have hrun : runG initG
      (Input.press .left :: (List.replicate 901 Input.tick ++ [Input.press .left]))
        = initG := by
    rw [runG_cons, s1, runG_append, hticks]
    decide
  have hcc : claimCount initG
      (Input.press .left :: (List.replicate 901 Input.tick ++ [Input.press .left])) = 1 := by
    rw [claimCount_cons_press, s1, claimCount_append, claimCount_replicate_tick,
      runG_replicate_tick]
    rw [show (901 : Nat) = 900 + 1 from rfl, tickNState_succ,
      tickN_playing .LEFT_RED 900 0 (by decide)]
    decide
  have h2 := (hclaim (Input.press .left ::
      (List.replicate 901 Input.tick ++ [Input.press .left]))).mp (by rw [hrun]; rfl)
  rw [hcc] at h2
  exact absurd h2.2 (by decide)

/-- C5, amended: in every state reachable from the initial state by
button presses and countdown ticks, the holder is `NONE` exactly when
the phase is `GAME_OFF`; equivalently, exactly when no claim has
occurred in the current episode (every `GAME_OFF` state precedes the
first claim of its episode). -/
theorem spec_C5_amended : ∀ l : List Input,
    ((runG initG l).team_color = .NONE ↔ (runG initG l).game_state = .GAME_OFF) :=
  fun l => run_holder_iff l initG (by constructor <;> intro <;> rfl)

/-- C5, witness: the amended invariant instantiated after one claim. -/
theorem spec_C5_amended_witness :
    (runG initG [Input.press .left]).team_color = .LEFT_RED
    ∧ ((runG initG [Input.press .left]).team_color = .NONE
        ↔ (runG initG [Input.press .left]).game_state = .GAME_OFF) :=
  ⟨by decide, spec_C5_amended [Input.press .left]⟩

/-- C3: in any reachable playing state the countdown tick transitions to
`GAME_FINISHED` exactly when `current_game_time` equals
`game_time_seconds`; at that transition the timer is not changed and
one game-over message naming the holder is emitted; once finished,
ticks change nothing until a reset; and along any run the number of
playing-to-finished transitions plus the pending-finish potential
equals the number of episode starts, so the transition happens exactly
once per Active episode. -/
theorem spec_C3 :
    (∀ l : List Input, (runG initG l).game_state = .GAME_PLAYING →
       (((countdown_tick (runG initG l)).1.game_state = .GAME_FINISHED)
         ↔ (runG initG l).current_game_time = game_time_seconds))
    ∧ (∀ g : Globals, g.game_state = .GAME_PLAYING → g.current_game_time = game_time_seconds →
        countdown_tick g = ({ g with game_state := .GAME_FINISHED },
          [.game_over (teamLabel g.team_color)]))
    ∧ (∀ g : Globals, g.game_state = .GAME_FINISHED → countdown_tick g = (g, []))
    ∧ (∀ l : List Input, finishCount initG l + potFin (runG initG l) = startCount initG l) := by
  refine ⟨?_, ?_, ?_, ?_⟩
  · intro l hp
    have hle := run_elapsed_le l initG (by decide)
    simp only [countdown_tick, hp, if_pos]
    split_ifs with h1 <;> simp [hp, game_time_seconds] at * <;> omega
  · intro g hp ht
    simp [countdown_tick, hp, ht, game_time_seconds]
  · intro g hf
    simp [countdown_tick, hf]
  · intro l
    have h := run_fin_balance l initG
    simpa [potFin, initG] using h

/-- C3, witness: the finish transition, the frozen finished state, and
the counting identity at concrete inputs. -/
theorem spec_C3_witness :
    countdown_tick ⟨.GAME_PLAYING, .RIGHT_BLUE, 900⟩
      = (⟨.GAME_FINISHED, .RIGHT_BLUE, 900⟩, [.game_over "BLUE"])
    ∧ countdown_tick ⟨.GAME_FINISHED, .RIGHT_BLUE, 900⟩ = (⟨.GAME_FINISHED, .RIGHT_BLUE, 900⟩, [])
    ∧ finishCount initG [Input.press .left] + potFin (runG initG [Input.press .left])
        = startCount initG [Input.press .left] :=
  ⟨spec_C3.2.1 ⟨.GAME_PLAYING, .RIGHT_BLUE, 900⟩ rfl rfl,
   spec_C3.2.2.1 ⟨.GAME_FINISHED, .RIGHT_BLUE, 900⟩ rfl,
   spec_C3.2.2.2 [Input.press .left]⟩

/-- C4: a countdown tick from a playing state emits the halfway message
exactly when `current_game_time` equals `game_time_seconds / 2` (450),
and then the single message names the current holder and the remaining
time `game_time_seconds - current_game_time`; a button press never
emits a halfway message; and along any run the halfway messages plus
the pending-halfway potential equal the episode starts, so the message
fires exactly once per Active episode. -/
theorem spec_C4 :
    (∀ g : Globals, g.game_state = .GAME_PLAYING →
       ((countdown_tick g).2.countP isHalf = 1 ↔ g.current_game_time = game_time_seconds / 2)
       ∧ (g.current_game_time = game_time_seconds / 2 →
            (countdown_tick g).2
              = [.halfway (teamLabel g.team_color)
                  (format_time (game_time_seconds - g.current_game_time))]))
    ∧ (∀ (g : Globals) (b : Button), (stepG g (.press b)).2.countP isHalf = 0)
    ∧ (∀ l : List Input, halfCount initG l + potHalf (runG initG l) = startCount initG l) := by
  refine ⟨?_, ?_, ?_⟩
  · intro g hp
    constructor
    · simp only [countdown_tick, hp, if_pos]
      split_ifs with h1 h2 <;> simp_all [isHalf, game_time_seconds]
    · intro ht
      simp [countdown_tick, hp, ht, game_time_seconds]
  · intro g b
    rcases g with ⟨gs, tc, t⟩
    cases b <;> cases gs <;> cases tc <;>
      simp [stepG, button_isr_handler, pinOf, LEFT_BUTTON_PIN, RIGHT_BUTTON_PIN, isHalf]
  · intro l
    have h := run_half_balance l initG
    simpa [potHalf, initG] using h

/-- C4, witness: the halfway firing at 450, and the counting identity on
a short run. -/
theorem spec_C4_witness :
    (countdown_tick ⟨.GAME_PLAYING, .LEFT_RED, 450⟩).2 = [.halfway "RED" "07:30"]
    ∧ (stepG ⟨.GAME_PLAYING, .LEFT_RED, 450⟩ (.press .right)).2.countP isHalf = 0
    ∧ halfCount initG [Input.press .left, Input.tick]
        + potHalf (runG initG [Input.press .left, Input.tick])
        = startCount initG [Input.press .left, Input.tick] :=
  ⟨(spec_C4.1 ⟨.GAME_PLAYING, .LEFT_RED, 450⟩ rfl).2 rfl,
   spec_C4.2.1 ⟨.GAME_PLAYING, .LEFT_RED, 450⟩ .right,
   spec_C4.2.2 [Input.press .left, Input.tick]⟩

/-- C6: while playing, a press by the side that already holds the hill
changes nothing and emits nothing; a press by the other side only
changes the holder and emits exactly one took-the-hill message whose
remaining time is `game_time_seconds - current_game_time` at the
moment of the claim. -/
theorem spec_C6 : ∀ (g : Globals) (b : Button), g.game_state = .GAME_PLAYING →
    (team_of b = g.team_color → stepG g (.press b) = (g, []))
    ∧ (team_of b ≠ g.team_color →
        stepG g (.press b)
          = ({ g with team_color := team_of b },
             [.took_hill (teamLabel (team_of b))
               (format_time (game_time_seconds - g.current_game_time))])) := by
  intro g b hp
  rcases g with ⟨gs, tc, t⟩
  cases gs <;> simp_all
  constructor <;> intro h <;> cases b <;> cases tc <;>
    simp_all [stepG, button_isr_handler, pinOf, team_of, LEFT_BUTTON_PIN, RIGHT_BUTTON_PIN]

/-- C6, witness: a redundant re-claim is a no-op with no event, and an
opposing claim switches the holder with one message. -/
theorem spec_C6_witness :
    stepG ⟨.GAME_PLAYING, .LEFT_RED, 100⟩ (.press .left)
      = (⟨.GAME_PLAYING, .LEFT_RED, 100⟩, [])
    ∧ stepG ⟨.GAME_PLAYING, .LEFT_RED, 100⟩ (.press .right)
        = (⟨.GAME_PLAYING, .RIGHT_BLUE, 100⟩, [.took_hill "BLUE" "13:20"]) :=
  ⟨(spec_C6 ⟨.GAME_PLAYING, .LEFT_RED, 100⟩ .left rfl).1 rfl,
   (spec_C6 ⟨.GAME_PLAYING, .LEFT_RED, 100⟩ .right rfl).2 (by decide)⟩

/-- C7: along any run from the initial state the timer stays between 0
and `game_time_seconds`; a press entering `GAME_PLAYING` from
`GAME_OFF` and the finished-state reset both zero the timer; no step
zeroes a non-zero timer other than a button press outside
`GAME_PLAYING` (episode entry or reset); and while playing, no step
decreases the timer. -/
theorem spec_C7 :
    (∀ l : List Input, (runG initG l).current_game_time ≤ game_time_seconds)
    ∧ (∀ (g : Globals) (b : Button), g.game_state = .GAME_OFF →
        (stepG g (.press b)).1.game_state = .GAME_PLAYING
        ∧ (stepG g (.press b)).1.current_game_time = 0)
    ∧ (∀ (g : Globals) (b : Button), g.game_state = .GAME_FINISHED →
        (stepG g (.press b)).1.game_state = .GAME_OFF
        ∧ (stepG g (.press b)).1.current_game_time = 0)
    ∧ (∀ (g : Globals) (i : Input), g.current_game_time ≠ 0 →
        (stepG g i).1.current_game_time = 0 →
        isPress i = true ∧ g.game_state ≠ .GAME_PLAYING)
    ∧ (∀ (g : Globals) (i : Input), g.game_state = .GAME_PLAYING →
        g.current_game_time ≤ (stepG g i).1.current_game_time) := by
  refine ⟨?_, ?_, ?_, ?_, ?_⟩
  · intro l
    exact run_elapsed_le l initG (by decide)
  · intro g b hoff
    rcases g with ⟨gs, tc, t⟩
    cases b <;> simp_all [stepG, button_isr_handler, pinOf, LEFT_BUTTON_PIN, RIGHT_BUTTON_PIN]
  · intro g b hfin
    rcases g with ⟨gs, tc, t⟩
    cases b <;> simp_all [stepG, button_isr_handler, pinOf, LEFT_BUTTON_PIN, RIGHT_BUTTON_PIN]
  · intro g i ht h0
    rcases g with ⟨gs, tc, t⟩
    rcases i with b | _
    · cases b <;> cases gs <;> cases tc <;>
        simp_all [stepG, button_isr_handler, pinOf, LEFT_BUTTON_PIN, RIGHT_BUTTON_PIN, isPress]
    · cases gs <;>
        simp_all [stepG, countdown_tick, isPress, game_time_seconds] <;>
        split_ifs at h0 <;> simp_all
  · intro g i hp
    rcases g with ⟨gs, tc, t⟩
    rcases i with b | _
    · cases b <;> cases tc <;>
        simp_all [stepG, button_isr_handler, pinOf, LEFT_BUTTON_PIN, RIGHT_BUTTON_PIN]
    · simp_all [stepG, countdown_tick, game_time_seconds]
      split_ifs <;> simp_all

/-- C7, witness: concrete instances of each conjunct. -/
theorem spec_C7_witness :
    (runG initG [Input.press .left, Input.tick]).current_game_time ≤ game_time_seconds
    ∧ (stepG initG (.press .right)).1.game_state = .GAME_PLAYING
    ∧ (stepG ⟨.GAME_FINISHED, .LEFT_RED, 900⟩ (.press .left)).1.current_game_time = 0
    ∧ (isPress (Input.press .left) = true
        ∧ (⟨.GAME_FINISHED, .LEFT_RED, 900⟩ : Globals).game_state ≠ .GAME_PLAYING)
    ∧ 450 ≤ (stepG ⟨.GAME_PLAYING, .LEFT_RED, 450⟩ Input.tick).1.current_game_time :=
  ⟨spec_C7.1 [Input.press .left, Input.tick],
   (spec_C7.2.1 initG .right rfl).1,
   (spec_C7.2.2.1 ⟨.GAME_FINISHED, .LEFT_RED, 900⟩ .left rfl).2,
   spec_C7.2.2.2.1 ⟨.GAME_FINISHED, .LEFT_RED, 900⟩ (.press .left) (by decide) (by decide),
   spec_C7.2.2.2.2 ⟨.GAME_PLAYING, .LEFT_RED, 450⟩ Input.tick rfl⟩

/-- C8: the delivery worker processes dequeued messages strictly in
order, finishing one before the next; per message it makes at most
`max_retries` (3) attempts, stops at the first success, records one
2-second delay per failed attempt, and after three failures gives up
with the message discarded. -/
theorem spec_C8 : ∀ (deliver : OutboundMsg → Nat → Bool) (msgs : List OutboundMsg)
    (oracle : Nat → Bool),
    ((network_task_run deliver msgs).map Prod.fst = msgs)
    ∧ ((send_game_data_result oracle).attempts ≤ max_retries)
    ∧ ((send_game_data_result oracle).success = true
        ↔ (oracle 0 = true ∨ oracle 1 = true ∨ oracle 2 = true))
    ∧ (oracle 0 = true → send_game_data_result oracle = ⟨1, 0, true⟩)
    ∧ (oracle 0 = false → oracle 1 = true → send_game_data_result oracle = ⟨2, 1, true⟩)
    ∧ (oracle 0 = false → oracle 1 = false → oracle 2 = true →
        send_game_data_result oracle = ⟨3, 2, true⟩)
    ∧ (oracle 0 = false → oracle 1 = false → oracle 2 = false →
        send_game_data_result oracle = ⟨3, 3, false⟩) := by
  intro deliver msgs oracle
  refine ⟨?_, ?_⟩
  · simp only [network_task_run, List.map_map]
    exact List.map_id msgs
  · cases h0 : oracle 0 <;> cases h1 : oracle 1 <;> cases h2 : oracle 2 <;>
      simp [send_game_data_result, sendLoop, max_retries, h0, h1, h2]

/-- C8, witness: order preservation on a two-message queue, and a run
that succeeds on the second attempt after one delay. -/
theorem spec_C8_witness :
    (network_task_run (fun _ _ => true)
        [.game_started "RED", .game_over "BLUE"]).map Prod.fst
      = [.game_started "RED", .game_over "BLUE"]
    ∧ send_game_data_result (fun i => decide (i = 1)) = ⟨2, 1, true⟩ :=
  ⟨(spec_C8 (fun _ _ => true) [.game_started "RED", .game_over "BLUE"] (fun _ => true)).1,
   (spec_C8 (fun _ _ => true) [] (fun i => decide (i = 1))).2.2.2.2.1 rfl rfl⟩

/-- C9: the countdown body evaluates its conditions against the timer
value it reads before incrementing: the halfway message is emitted on
the tick that begins at 450; a tick beginning below `game_time_seconds`
only increments; the tick beginning at `game_time_seconds` performs no
increment and finishes the game; hence from a fresh Active state the
first 900 ticks leave the game playing with the timer at 900 and the
901st tick performs the finish transition. -/
theorem spec_C9 :
    (∀ g : Globals, g.game_state = .GAME_PLAYING →
       (((countdown_tick g).2.countP isHalf = 1) ↔ g.current_game_time = game_time_seconds / 2)
       ∧ (g.current_game_time < game_time_seconds →
           (countdown_tick g).1 = { g with current_game_time := g.current_game_time + 1 })
       ∧ (g.current_game_time = game_time_seconds →
           (countdown_tick g).1 = { g with game_state := .GAME_FINISHED }))
    ∧ (∀ (h : TeamColor) (k : Nat), k ≤ game_time_seconds →
        tickNState k ⟨.GAME_PLAYING, h, 0⟩ = ⟨.GAME_PLAYING, h, k⟩)
    ∧ (∀ h : TeamColor,
        tickNState (game_time_seconds + 1) ⟨.GAME_PLAYING, h, 0⟩
          = ⟨.GAME_FINISHED, h, game_time_seconds⟩) := by
  refine ⟨?_, ?_, ?_⟩
  · intro g hp
    refine ⟨?_, ?_, ?_⟩
    · simp only [countdown_tick, hp, if_pos]
      split_ifs with h1 h2 <;> simp_all [isHalf, game_time_seconds]
    · intro hlt
      simp [countdown_tick, hp, hlt]
    · intro ht
      simp [countdown_tick, hp, ht, game_time_seconds]
  · intro h k hk
    have := tickN_playing h k 0 (by omega)
    simpa using this
  · intro h
    rw [tickNState_succ, tickN_playing h game_time_seconds 0 (by omega)]
    simp [tickState, countdown_tick, game_time_seconds]

/-- C9, witness: concrete playing states and a short episode prefix. -/
theorem spec_C9_witness :
    (countdown_tick ⟨.GAME_PLAYING, .LEFT_RED, 450⟩).2.countP isHalf = 1
    ∧ (countdown_tick ⟨.GAME_PLAYING, .LEFT_RED, 899⟩).1 = ⟨.GAME_PLAYING, .LEFT_RED, 900⟩
    ∧ (countdown_tick ⟨.GAME_PLAYING, .LEFT_RED, 900⟩).1 = ⟨.GAME_FINISHED, .LEFT_RED, 900⟩
    ∧ tickNState 3 ⟨.GAME_PLAYING, .RIGHT_BLUE, 0⟩ = ⟨.GAME_PLAYING, .RIGHT_BLUE, 3⟩
    ∧ tickNState (game_time_seconds + 1) ⟨.GAME_PLAYING, .RIGHT_BLUE, 0⟩
        = ⟨.GAME_FINISHED, .RIGHT_BLUE, game_time_seconds⟩ :=
  ⟨(spec_C9.1 ⟨.GAME_PLAYING, .LEFT_RED, 450⟩ rfl).1.mpr rfl,
   (spec_C9.1 ⟨.GAME_PLAYING, .LEFT_RED, 899⟩ rfl).2.1 (by decide),
   (spec_C9.1 ⟨.GAME_PLAYING, .LEFT_RED, 900⟩ rfl).2.2 rfl,
   spec_C9.2.1 .RIGHT_BLUE 3 (by decide),
   spec_C9.2.2 .RIGHT_BLUE⟩

/-- C10: when every attempt fails, `send_game_data` performs the
2-second delay after each of the three failed attempts — including the
final one — before the message is discarded: three attempts and three
delays. -/
theorem spec_C10 : ∀ oracle : Nat → Bool,
    oracle 0 = false → oracle 1 = false → oracle 2 = false →
    send_game_data_result oracle = ⟨max_retries, max_retries, false⟩ := by
  intro oracle h0 h1 h2
  simp [send_game_data_result, sendLoop, max_retries, h0, h1, h2]

/-- C10, witness: the always-failing transport. -/
theorem spec_C10_witness :
    send_game_data_result (fun _ => false) = ⟨max_retries, max_retries, false⟩ :=
  spec_C10 (fun _ => false) rfl rfl rfl
